import Mathlib

/-!
Shallow embedding of the `releases` facade of the go-gitlab client
(`src/releases.go`): the five release operations, their wire formats and
error behaviour.  The shared HTTP client, the identifier parser and the
pagination/link types live outside the sources at hand and are modelled
from the specification where marked.
-/

set_option maxHeartbeats 1000000

/-! ## JSON values, Go-style rendering and escaping -/

/-- A JSON value: the wire format used by the facade.  Numbers are
integers, which covers every numeric field of the releases payloads. -/
inductive Json where
  | null : Json
  | bool (b : Bool) : Json
  | num (n : Int) : Json
  | str (s : String) : Json
  | arr (elems : List Json) : Json
  | obj (fields : List (String × Json)) : Json

/-- Lowercase hex digit, as in Go `encoding/json` escape sequences. -/
def hexDigitLower (n : Nat) : Char :=
  if n < 10 then Char.ofNat (48 + n) else Char.ofNat (87 + n)

/-- Escaping of one character as performed by Go `encoding/json` with the
default HTML escaping: quote, backslash, newline, carriage return, tab get
two-character escapes; `<`, `>`, `&` and other control characters get
`\u00XX` escapes; everything else is emitted unchanged. -/
def goEscapeChar (c : Char) : List Char :=
  if c = Char.ofNat 34 then [Char.ofNat 92, Char.ofNat 34]
  else if c = Char.ofNat 92 then [Char.ofNat 92, Char.ofNat 92]
  else if c = Char.ofNat 10 then [Char.ofNat 92, 'n']
  else if c = Char.ofNat 13 then [Char.ofNat 92, 'r']
  else if c = Char.ofNat 9 then [Char.ofNat 92, 't']
  else if c = '<' then [Char.ofNat 92, 'u', '0', '0', '3', 'c']
  else if c = '>' then [Char.ofNat 92, 'u', '0', '0', '3', 'e']
  else if c = '&' then [Char.ofNat 92, 'u', '0', '0', '2', '6']
  else if c.toNat < 32 then
    [Char.ofNat 92, 'u', '0', '0', hexDigitLower (c.toNat / 16), hexDigitLower (c.toNat % 16)]
  else [c]

/-- Go-style JSON escaping of a character list. -/
def goEscapeList : List Char → List Char
  | [] => []
  | c :: cs => goEscapeChar c ++ goEscapeList cs

/-- Go-style JSON escaping of a string. -/
def goEscape (s : String) : String := ⟨goEscapeList s.data⟩

/-- A JSON string literal as rendered by Go: escaped and quoted. -/
def renderString (s : String) : String := "\"" ++ goEscape s ++ "\""

mutual

/-- Compact rendering of a JSON value, matching the output of Go
`json.Marshal`: no whitespace, object fields in struct-field order. -/
def Json.render : Json → String
  | .null => "null"
  | .bool true => "true"
  | .bool false => "false"
  | .num n => toString n
  | .str s => renderString s
  | .arr xs => "[" ++ renderElems xs ++ "]"
  | .obj fs => "\x7b" ++ renderFields fs ++ "\x7d"

/-- Comma-separated rendering of array elements. -/
def renderElems : List Json → String
  | [] => ""
  | [x] => x.render
  | x :: y :: xs => x.render ++ "," ++ renderElems (y :: xs)

/-- Comma-separated rendering of object fields, each `"key":value`. -/
def renderFields : List (String × Json) → String
  | [] => ""
  | [(k, v)] => renderString k ++ ":" ++ v.render
  | (k, v) :: f :: fs => renderString k ++ ":" ++ v.render ++ "," ++ renderFields (f :: fs)

end

/-- First-match lookup of a key in a JSON object's field list. -/
def Json.lookupField (fs : List (String × Json)) (k : String) : Option Json :=
  match fs with
  | [] => none
  | (k₀, v) :: rest => if k₀ = k then some v else Json.lookupField rest k

/-! ## Substring search (used to state the wire-contract claims) -/

/-- `startsWithList l p` holds when `p` is a prefix of `l`. -/
def startsWithList : List Char → List Char → Bool
  | _, [] => true
  | [], _ :: _ => false
  | a :: as, b :: bs => a = b && startsWithList as bs

/-- `containsSubAux l p` holds when `p` occurs contiguously inside `l`. -/
def containsSubAux : List Char → List Char → Bool
  | [], pat => pat.isEmpty
  | c :: rest, pat => startsWithList (c :: rest) pat || containsSubAux rest pat

/-- `containsSubstr s pat` holds when `pat` occurs as a substring of `s`. -/
def containsSubstr (s pat : String) : Bool := containsSubAux s.data pat.data

/-! ## UTF-8 and Go's `url.QueryEscape`

`src/releases.go` percent-encodes the project segment with Go's
`url.QueryEscape`, which operates on the UTF-8 bytes of the string:
alphanumerics and `-._~` are kept, a space becomes `+`, every other byte
becomes `%XX` with uppercase hex digits. -/

/-- UTF-8 encoding of a single code point (as byte values). -/
def utf8BytesOfCodepoint (n : Nat) : List Nat :=
  if n < 0x80 then [n]
  else if n < 0x800 then [0xC0 + n / 64, 0x80 + n % 64]
  else if n < 0x10000 then [0xE0 + n / 4096, 0x80 + (n / 64) % 64, 0x80 + n % 64]
  else [0xF0 + n / 262144, 0x80 + (n / 4096) % 64, 0x80 + (n / 64) % 64, 0x80 + n % 64]

/-- The UTF-8 bytes of a string (Go strings are byte strings in UTF-8). -/
def utf8Bytes (s : String) : List Nat :=
  s.data.foldr (fun c acc => utf8BytesOfCodepoint c.toNat ++ acc) []

/-- Uppercase hex digit, as used by Go's percent-encoding. -/
def hexDigitUpper (n : Nat) : Char :=
  if n < 10 then Char.ofNat (48 + n) else Char.ofNat (55 + n)

/-- Bytes left unescaped by Go's `url.QueryEscape`: alphanumerics and
`-`, `_`, `.`, `~`. -/
def queryUnreserved (b : Nat) : Bool :=
  (48 ≤ b && b ≤ 57) || (65 ≤ b && b ≤ 90) || (97 ≤ b && b ≤ 122) ||
    b = 45 || b = 95 || b = 46 || b = 126

/-- Escaping of one byte under Go's `url.QueryEscape`. -/
def queryEscapeByte (b : Nat) : List Char :=
  if queryUnreserved b then [Char.ofNat b]
  else if b = 32 then ['+']
  else ['%', hexDigitUpper (b / 16), hexDigitUpper (b % 16)]

namespace url

/-- Go's `url.QueryEscape`, as called by every operation of
`src/releases.go` on the parsed project reference. -/
def QueryEscape (s : String) : String :=
  ⟨(utf8Bytes s).foldr (fun b acc => queryEscapeByte b ++ acc) []⟩

/-- Modelled from the spec: percent-encoding of a string **as a path
segment** (Go's `url.PathEscape`), the encoding the spec's interface
section prescribes for the `{project}` placeholder.  Path-segment
escaping keeps alphanumerics, `-._~` and the sub-delimiters
`$ & + : = @`, and escapes everything else (a space becomes `%20`, not
`+`).  Only used to compare the spec's words against the code. -/
def PathSegmentEscape (s : String) : String :=
  ⟨(utf8Bytes s).foldr (fun b acc =>
    (if queryUnreserved b || b = 36 || b = 38 || b = 43 || b = 58 || b = 61 || b = 64
     then [Char.ofNat b]
     else ['%', hexDigitUpper (b / 16), hexDigitUpper (b % 16)]) ++ acc) []⟩

end url

/-! ## Data model (`src/releases.go`) -/

/-- The author summary nested in `Release` (`src/releases.go` lines 26-33,
an anonymous struct in the source). -/
structure ReleaseAuthor where
  ID : Int
  Name : String
  Username : String
  State : String
  AvatarURL : String
  WebURL : String
deriving DecidableEq, Repr

/-- Modelled from the spec: `ReleaseLink`, the output representation of an
asset link nested in `Release.Assets.Links`; its type is declared outside
the sources at hand.  The spec's interface section and the wire fixtures
give it `id`, `name`, `url` and `external` fields (note `url`, not `ref`). -/
structure ReleaseLink where
  ID : Int
  Name : String
  URL : String
  External : Bool
deriving DecidableEq, Repr

/-- A source-archive descriptor nested in `Release.Assets.Sources`
(`src/releases.go` lines 37-40, an anonymous struct in the source). -/
structure ReleaseSource where
  Format : String
  URL : String
deriving DecidableEq, Repr

/-- The assets summary nested in `Release` (`src/releases.go` lines 35-42,
an anonymous struct in the source). -/
structure ReleaseAssetsInfo where
  Count : Int
  Sources : List ReleaseSource
  Links : List ReleaseLink

/-- `Release` (`src/releases.go` lines 20-43).  Pointer-typed fields of the
source become `Option`s.  The `created_at` timestamp is kept as its RFC3339
wire string: the facade never computes with it.  The associated commit is an
opaque external record (its `Commit` type is declared outside the sources at
hand), kept as raw JSON. -/
structure Release where
  TagName : String
  Name : String
  Description : String
  DescriptionHTML : String
  CreatedAt : Option String
  Author : Option ReleaseAuthor
  Commit : Option Json
  Assets : Option ReleaseAssetsInfo

/-- `ReleaseAssetLink` (`src/releases.go` lines 108-111): a create-options
input asset link.  Its `URL` field carries the json tag `ref`. -/
structure ReleaseAssetLink where
  Name : String
  URL : String
deriving DecidableEq, Repr

/-- `ReleaseAssets` (`src/releases.go` lines 101-103): the create-options
assets wrapper, a list of input asset links under the `links` key. -/
structure ReleaseAssets where
  Links : List ReleaseAssetLink
deriving DecidableEq, Repr

/-- `CreateReleaseOptions` (`src/releases.go` lines 116-122): `ref` and
`assets` carry `omitempty`, the other fields are always serialized. -/
structure CreateReleaseOptions where
  Name : String
  TagName : String
  Description : String
  Ref : String
  Assets : Option ReleaseAssets
deriving DecidableEq, Repr

/-- `UpdateReleaseOptions` (`src/releases.go` lines 151-154): only `name`
and `description`; there is no field for the tag. -/
structure UpdateReleaseOptions where
  Name : String
  Description : String
deriving DecidableEq, Repr

/-- Modelled from the spec: the collaborator-owned `ListOptions`
pagination parameters (page number and per-page count), aliased by
`ListReleasesOptions` in `src/releases.go` line 48. -/
structure ListOptions where
  Page : Int
  PerPage : Int
deriving DecidableEq, Repr

/-- `ListReleasesOptions` (`src/releases.go` line 48) is an alias of the
collaborator's `ListOptions`. -/
def ListReleasesOptions := ListOptions

/-! ## Decoding (Go `encoding/json` semantics over the struct tags) -/

/-- Decode a string field: a missing key or JSON `null` leaves the Go zero
value `""`; a non-string value is a decode error. -/
def getString (fs : List (String × Json)) (k : String) : Option String :=
  match Json.lookupField fs k with
  | none => some ""
  | some Json.null => some ""
  | some (Json.str s) => some s
  | some _ => none

/-- Decode an integer field: a missing key or JSON `null` leaves the Go
zero value `0`; a non-number is a decode error. -/
def getInt (fs : List (String × Json)) (k : String) : Option Int :=
  match Json.lookupField fs k with
  | none => some 0
  | some Json.null => some 0
  | some (Json.num n) => some n
  | some _ => none

/-- Decode a boolean field: a missing key or JSON `null` leaves the Go
zero value `false`; a non-boolean is a decode error. -/
def getBool (fs : List (String × Json)) (k : String) : Option Bool :=
  match Json.lookupField fs k with
  | none => some false
  | some Json.null => some false
  | some (Json.bool b) => some b
  | some _ => none

/-- Decode every element of a JSON array; a non-array is a decode error. -/
def decodeList (dec : Json → Option α) : Json → Option (List α)
  | Json.arr xs =>
    let rec go : List Json → Option (List α)
      | [] => some []
      | j :: js =>
        match dec j with
        | none => none
        | some x => (go js).map (x :: ·)
    go xs
  | _ => none

/-- Decode an optional (pointer-typed) nested field: a missing key or
`null` leaves the Go `nil` pointer. -/
def getOpt (dec : Json → Option α) (fs : List (String × Json)) (k : String) :
    Option (Option α) :=
  match Json.lookupField fs k with
  | none => some none
  | some Json.null => some none
  | some j => (dec j).map some

/-- Decode a slice-typed field: a missing key or `null` leaves the Go
`nil` slice, treated as the empty list. -/
def getList (dec : Json → Option α) (fs : List (String × Json)) (k : String) :
    Option (List α) :=
  match Json.lookupField fs k with
  | none => some []
  | some Json.null => some []
  | some j => decodeList dec j

/-- Decode the nested author summary of a `Release`. -/
def decodeAuthor : Json → Option ReleaseAuthor
  | Json.obj fs => do
    let id ← getInt fs "id"
    let name ← getString fs "name"
    let username ← getString fs "username"
    let state ← getString fs "state"
    let avatarURL ← getString fs "avatar_url"
    let webURL ← getString fs "web_url"
    some ⟨id, name, username, state, avatarURL, webURL⟩
  | _ => none

/-- Decode a source-archive descriptor of a `Release`'s assets. -/
def decodeSource : Json → Option ReleaseSource
  | Json.obj fs => do
    let format ← getString fs "format"
    let u ← getString fs "url"
    some ⟨format, u⟩
  | _ => none

/-- Decode an output asset link (`ReleaseLink`). -/
def decodeReleaseLink : Json → Option ReleaseLink
  | Json.obj fs => do
    let id ← getInt fs "id"
    let name ← getString fs "name"
    let u ← getString fs "url"
    let ext ← getBool fs "external"
    some ⟨id, name, u, ext⟩
  | _ => none

/-- Decode the nested assets summary of a `Release`. -/
def decodeAssetsInfo : Json → Option ReleaseAssetsInfo
  | Json.obj fs => do
    let count ← getInt fs "count"
    let sources ← getList decodeSource fs "sources"
    let links ← getList decodeReleaseLink fs "links"
    some ⟨count, sources, links⟩
  | _ => none

/-- Decode the `created_at` timestamp, kept as its RFC3339 wire string. -/
def decodeTimestamp : Json → Option String
  | Json.str s => some s
  | _ => none

/-- Decode a `Release` from a JSON object, per the json tags of
`src/releases.go` lines 20-43. -/
def decodeRelease : Json → Option Release
  | Json.obj fs => do
    let tagName ← getString fs "tag_name"
    let name ← getString fs "name"
    let description ← getString fs "description"
    let descriptionHTML ← getString fs "description_html"
    let createdAt ← getOpt decodeTimestamp fs "created_at"
    let author ← getOpt decodeAuthor fs "author"
    let commit ← getOpt some fs "commit"
    let assets ← getOpt decodeAssetsInfo fs "assets"
    some ⟨tagName, name, description, descriptionHTML, createdAt, author, commit, assets⟩
  | _ => none

/-- Decode into a `*Release` target (Go `var r *Release`): JSON `null`
leaves the `nil` pointer; anything else must decode as a `Release`. -/
def decodeReleasePtr : Json → Option (Option Release)
  | Json.null => some none
  | j => (decodeRelease j).map some

/-- Decode into a `[]*Release` target (Go `var r []*Release`): JSON `null`
leaves the `nil` slice; an array decodes element-wise, in order. -/
def decodeReleaseSlice : Json → Option (Option (List (Option Release)))
  | Json.null => some none
  | j => (decodeList decodeReleasePtr j).map some

/-! ## Encoding (the request bodies, per the json tags of the source) -/

/-- Serialize a `ReleaseAssetLink` per its json tags (`src/releases.go`
lines 108-111): the display name under `name`, the URL under `ref`. -/
def encodeReleaseAssetLink (l : ReleaseAssetLink) : Json :=
  Json.obj [("name", Json.str l.Name), ("ref", Json.str l.URL)]

/-- Serialize a `ReleaseAssets` wrapper per its json tag (`links`). -/
def encodeReleaseAssets (a : ReleaseAssets) : Json :=
  Json.obj [("links", Json.arr (a.Links.map encodeReleaseAssetLink))]

/-- Serialize `CreateReleaseOptions` per its json tags (`src/releases.go`
lines 116-122): `name`, `tag_name`, `description` always, `ref` and
`assets` only when non-zero (`omitempty`). -/
def encodeCreateReleaseOptions (o : CreateReleaseOptions) : Json :=
  Json.obj
    ([("name", Json.str o.Name), ("tag_name", Json.str o.TagName),
      ("description", Json.str o.Description)] ++
      (if o.Ref = "" then [] else [("ref", Json.str o.Ref)]) ++
      (match o.Assets with
       | none => []
       | some a => [("assets", encodeReleaseAssets a)]))

/-- Serialize `UpdateReleaseOptions` per its json tags (`src/releases.go`
lines 151-154): exactly `name` and `description`. -/
def encodeUpdateReleaseOptions (o : UpdateReleaseOptions) : Json :=
  Json.obj [("name", Json.str o.Name), ("description", Json.str o.Description)]

/-- Modelled from the spec: the collaborator's query-string encoding of the
pagination parameters (zero values omitted, as `page`/`per_page`). -/
def encodeListOptions (o : ListOptions) : String :=
  String.intercalate "&"
    (((if o.Page = 0 then [] else ["page=" ++ toString o.Page]) ++
      (if o.PerPage = 0 then [] else ["per_page=" ++ toString o.PerPage])))

/-! ## The collaborator client and the project-reference parser -/

/-- The error kinds of the spec's error-handling section. -/
inductive ErrorKind where
  | invalidArgument : ErrorKind
  | requestConstruction : ErrorKind
  | transport : ErrorKind
  | remote : ErrorKind
  | decode : ErrorKind
deriving DecidableEq, Repr

/-- Modelled from the spec: a project reference is "either a positive
integer project id or a URL-encodable string path"; other reference types
(e.g. a floating-point value or a struct) are unsupported.  The source's
`pid interface{}` parameter is this closed sum. -/
inductive ProjectRef where
  | intId (n : Int) : ProjectRef
  | strPath (s : String) : ProjectRef
  | unsupported (typeName : String) : ProjectRef
deriving DecidableEq, Repr

/-- Modelled from the spec: the collaborator's identifier-parsing routine
(`parseID`, declared outside the sources at hand): it accepts a positive
integer id or a non-empty string path and returns the normalized path
segment; an unsupported type or an empty/invalid string yields an
`InvalidArgument` error. -/
def parseID : ProjectRef → Except ErrorKind String
  | ProjectRef.intId n =>
    if 0 < n then Except.ok (toString n) else Except.error ErrorKind.invalidArgument
  | ProjectRef.strPath s =>
    if s.isEmpty then Except.error ErrorKind.invalidArgument else Except.ok s
  | ProjectRef.unsupported _ => Except.error ErrorKind.invalidArgument

/-- An HTTP request as handed to the collaborator: verb, relative path,
optional JSON body (already serialized) and optional query string. -/
structure Request where
  method : String
  path : String
  body : Option String
  query : Option String
deriving DecidableEq, Repr

/-- Response metadata (the `*Response` of the source): status code and
rate-limit information owned by the collaborator. -/
structure Response where
  statusCode : Nat
deriving DecidableEq, Repr

/-- Modelled from the spec: the opaque generic REST client.  `buildErr`
says whether building a given request fails before transmission
(`RequestConstructionError`); `perform` executes one round trip, yielding
either the parsed JSON response body or a transport/remote/decode error,
together with whatever response metadata accompanied it. -/
structure Client where
  buildErr : String → String → Option String → Option String → Option ErrorKind
  perform : Request → Except ErrorKind Json × Option Response

/-- Modelled from the spec: the collaborator's request builder
(`Client.NewRequest`): it either fails before transmission or yields the
request exactly as specified by the facade. -/
def Client.NewRequest (c : Client) (method path : String)
    (body query : Option String) : Except ErrorKind Request :=
  match c.buildErr method path body query with
  | some e => Except.error e
  | none => Except.ok ⟨method, path, body, query⟩

/-- Modelled from the spec: the collaborator's response executor
(`Client.Do`): one round trip, decoding the response body into the typed
target; a body of the wrong shape is a decode error, and the response
metadata always accompanies the outcome. -/
def Client.Do (c : Client) (req : Request) (dec : Json → Option α) :
    Except ErrorKind α × Option Response :=
  match c.perform req with
  | (Except.error e, m) => (Except.error e, m)
  | (Except.ok j, m) =>
    match dec j with
    | some v => (Except.ok v, m)
    | none => (Except.error ErrorKind.decode, m)

/-- The triple returned by every operation: the primary result (a `nil`
pointer or slice is `none`), the response metadata, and the error. -/
structure OpResult (α : Type) where
  result : Option α
  resp : Option Response
  err : Option ErrorKind

/-! ## The five operations (`src/releases.go`)

Each operation is the source function with the collaborator passed
explicitly; alongside the Go return triple it yields the trace of HTTP
requests handed to the collaborator, so that "performs zero HTTP calls"
and "issues exactly one request" are statable.  The variadic per-call
option hooks of the source are collaborator-applied request mutators and
are not modelled. -/

namespace ReleasesService

/-- `ListReleases` (`src/releases.go` lines 53-72). -/
def ListReleases (c : Client) (pid : ProjectRef) (opt : Option ListOptions) :
    OpResult (List (Option Release)) × List Request :=
  match parseID pid with
  | Except.error e => (⟨none, none, some e⟩, [])
  | Except.ok project =>
    let u := "projects/" ++ url.QueryEscape project ++ "/releases"
    match c.NewRequest "GET" u none (opt.map encodeListOptions) with
    | Except.error e => (⟨none, none, some e⟩, [])
    | Except.ok req =>
      match c.Do req decodeReleaseSlice with
      | (Except.error e, m) => (⟨none, m, some e⟩, [req])
      | (Except.ok r, m) => (⟨r, m, none⟩, [req])

/-- `GetRelease` (`src/releases.go` lines 77-96).  The tag is interpolated
into the path verbatim; only the project segment is escaped. -/
def GetRelease (c : Client) (pid : ProjectRef) (tag : String) :
    OpResult Release × List Request :=
  match parseID pid with
  | Except.error e => (⟨none, none, some e⟩, [])
  | Except.ok project =>
    let u := "projects/" ++ url.QueryEscape project ++ "/releases/" ++ tag
    match c.NewRequest "GET" u none none with
    | Except.error e => (⟨none, none, some e⟩, [])
    | Except.ok req =>
      match c.Do req decodeReleasePtr with
      | (Except.error e, m) => (⟨none, m, some e⟩, [req])
      | (Except.ok r, m) => (⟨r, m, none⟩, [req])

/-- `CreateRelease` (`src/releases.go` lines 127-146).  The options struct
is serialized as the JSON body. -/
def CreateRelease (c : Client) (pid : ProjectRef) (opts : Option CreateReleaseOptions) :
    OpResult Release × List Request :=
  match parseID pid with
  | Except.error e => (⟨none, none, some e⟩, [])
  | Except.ok project =>
    let u := "projects/" ++ url.QueryEscape project ++ "/releases"
    match c.NewRequest "POST" u (opts.map (fun o => (encodeCreateReleaseOptions o).render)) none with
    | Except.error e => (⟨none, none, some e⟩, [])
    | Except.ok req =>
      match c.Do req decodeReleasePtr with
      | (Except.error e, m) => (⟨none, m, some e⟩, [req])
      | (Except.ok r, m) => (⟨r, m, none⟩, [req])

/-- `UpdateRelease` (`src/releases.go` lines 159-178). -/
def UpdateRelease (c : Client) (pid : ProjectRef) (tag : String)
    (opts : Option UpdateReleaseOptions) : OpResult Release × List Request :=
  match parseID pid with
  | Except.error e => (⟨none, none, some e⟩, [])
  | Except.ok project =>
    let u := "projects/" ++ url.QueryEscape project ++ "/releases/" ++ tag
    match c.NewRequest "PUT" u (opts.map (fun o => (encodeUpdateReleaseOptions o).render)) none with
    | Except.error e => (⟨none, none, some e⟩, [])
    | Except.ok req =>
      match c.Do req decodeReleasePtr with
      | (Except.error e, m) => (⟨none, m, some e⟩, [req])
      | (Except.ok r, m) => (⟨r, m, none⟩, [req])

/-- `DeleteRelease` (`src/releases.go` lines 183-202). -/
def DeleteRelease (c : Client) (pid : ProjectRef) (tag : String) :
    OpResult Release × List Request :=
  match parseID pid with
  | Except.error e => (⟨none, none, some e⟩, [])
  | Except.ok project =>
    let u := "projects/" ++ url.QueryEscape project ++ "/releases/" ++ tag
    match c.NewRequest "DELETE" u none none with
    | Except.error e => (⟨none, none, some e⟩, [])
    | Except.ok req =>
      match c.Do req decodeReleasePtr with
      | (Except.error e, m) => (⟨none, m, some e⟩, [req])
      | (Except.ok r, m) => (⟨r, m, none⟩, [req])

end ReleasesService

/-! ## Fixture clients (used by witnesses and counterexamples) -/

/-- A client whose round trip always succeeds with an empty (`null`)
body. -/
def stubClient : Client :=
  ⟨fun _ _ _ _ => none, fun _ => (Except.ok Json.null, some ⟨200⟩)⟩

/-- A small release payload echoing the fixture tag `v0.1`. -/
def fixtureJson : Json :=
  Json.obj [("tag_name", Json.str "v0.1"), ("name", Json.str "Awesome app v0.1 alpha"),
    ("description", Json.str "CHANGELOG for v0.1")]

/-- A client that answers every request with `fixtureJson`. -/
def echoClient : Client :=
  ⟨fun _ _ _ _ => none, fun _ => (Except.ok fixtureJson, some ⟨200⟩)⟩

/-- A client whose round trip always fails with the given error and
metadata. -/
def failClient (e : ErrorKind) (m : Option Response) : Client :=
  ⟨fun _ _ _ _ => none, fun _ => (Except.error e, m)⟩

/-! ## Basic facts about the modelled collaborators -/

/-- `parseID` only ever fails with `InvalidArgument`. -/
theorem parseID_error_invalidArgument (pid : ProjectRef) (e : ErrorKind)
    (h : parseID pid = Except.error e) : e = ErrorKind.invalidArgument := by
  cases pid with
  | intId n =>
    by_cases hn : 0 < n
    · simp [parseID, hn] at h
    · simp [parseID, hn] at h; exact h.symm
  | strPath s =>
    by_cases hs : s.isEmpty
    · simp [parseID, hs] at h; exact h.symm
    · simp [parseID, hs] at h
  | unsupported t => simp [parseID] at h; exact h.symm

/-- C1: an unsupported or empty/invalid project reference makes every one
of the five operations fail locally with an `InvalidArgument` error,
perform zero HTTP calls, and return a `nil` result and `nil` response
metadata. -/
theorem invalid_ref_fails_locally_all_ops (c : Client) (pid : ProjectRef)
    (e : ErrorKind) (h : parseID pid = Except.error e)
    (opt : Option ListOptions) (tag : String)
    (copts : Option CreateReleaseOptions) (uopts : Option UpdateReleaseOptions) :
    e = ErrorKind.invalidArgument ∧
    ReleasesService.ListReleases c pid opt = (⟨none, none, some e⟩, []) ∧
    ReleasesService.GetRelease c pid tag = (⟨none, none, some e⟩, []) ∧
    ReleasesService.CreateRelease c pid copts = (⟨none, none, some e⟩, []) ∧
    ReleasesService.UpdateRelease c pid tag uopts = (⟨none, none, some e⟩, []) ∧
    ReleasesService.DeleteRelease c pid tag = (⟨none, none, some e⟩, []) := by
  refine ⟨parseID_error_invalidArgument pid e h, ?_, ?_, ?_, ?_, ?_⟩ <;>
    simp [ReleasesService.ListReleases, ReleasesService.GetRelease,
      ReleasesService.CreateRelease, ReleasesService.UpdateRelease,
      ReleasesService.DeleteRelease, h]

/-- C1 witness: at a floating-point (unsupported) project reference every
operation returns the local `InvalidArgument` triple and an empty request
trace. -/
theorem invalid_ref_fails_locally_all_ops_witness :
    ReleasesService.ListReleases stubClient (ProjectRef.unsupported "float64") none =
      (⟨none, none, some ErrorKind.invalidArgument⟩, []) ∧
    ReleasesService.GetRelease stubClient (ProjectRef.unsupported "float64") "v0.1" =
      (⟨none, none, some ErrorKind.invalidArgument⟩, []) ∧
    ReleasesService.CreateRelease stubClient (ProjectRef.unsupported "float64") none =
      (⟨none, none, some ErrorKind.invalidArgument⟩, []) ∧
    ReleasesService.UpdateRelease stubClient (ProjectRef.unsupported "float64") "v0.1" none =
      (⟨none, none, some ErrorKind.invalidArgument⟩, []) ∧
    ReleasesService.DeleteRelease stubClient (ProjectRef.unsupported "float64") "v0.1" =
      (⟨none, none, some ErrorKind.invalidArgument⟩, []) :=
  have h := invalid_ref_fails_locally_all_ops stubClient
    (ProjectRef.unsupported "float64") ErrorKind.invalidArgument rfl none "v0.1" none none
  ⟨h.2.1, h.2.2.1, h.2.2.2.1, h.2.2.2.2.1, h.2.2.2.2.2⟩

/-- C10: for every operation, every client and every input, a non-`nil`
error is never accompanied by a result value: the primary result is `nil`
whenever the error is non-`nil`. -/
theorem err_implies_nil_result (c : Client) (pid : ProjectRef)
    (opt : Option ListOptions) (tag : String)
    (copts : Option CreateReleaseOptions) (uopts : Option UpdateReleaseOptions) :
    ((ReleasesService.ListReleases c pid opt).1.err ≠ none →
      (ReleasesService.ListReleases c pid opt).1.result = none) ∧
    ((ReleasesService.GetRelease c pid tag).1.err ≠ none →
      (ReleasesService.GetRelease c pid tag).1.result = none) ∧
    ((ReleasesService.CreateRelease c pid copts).1.err ≠ none →
      (ReleasesService.CreateRelease c pid copts).1.result = none) ∧
    ((ReleasesService.UpdateRelease c pid tag uopts).1.err ≠ none →
      (ReleasesService.UpdateRelease c pid tag uopts).1.result = none) ∧
    ((ReleasesService.DeleteRelease c pid tag).1.err ≠ none →
      (ReleasesService.DeleteRelease c pid tag).1.result = none) := by
  refine ⟨?_, ?_, ?_, ?_, ?_⟩ <;>
  · intro hne
    first
    | (unfold ReleasesService.ListReleases at *)
    | (unfold ReleasesService.GetRelease at *)
    | (unfold ReleasesService.CreateRelease at *)
    | (unfold ReleasesService.UpdateRelease at *)
    | (unfold ReleasesService.DeleteRelease at *)
    cases hpid : parseID pid <;> simp [hpid] at hne ⊢ <;>
      [skip] <;> try exact trivial
    all_goals
      cases hreq : Client.NewRequest c _ _ _ _ <;> simp [hreq] at hne ⊢
    all_goals
      rcases hdo : Client.Do c _ _ with ⟨out, m⟩ <;> cases out <;> simp [hdo] at hne ⊢

/-- C10 witness: at an unsupported project reference the error is
non-`nil` and the result of each operation is `nil`. -/
theorem err_implies_nil_result_witness :
    (ReleasesService.ListReleases stubClient (ProjectRef.unsupported "float64") none).1.result
      = none ∧
    (ReleasesService.GetRelease stubClient (ProjectRef.unsupported "float64") "v0.1").1.result
      = none ∧
    (ReleasesService.CreateRelease stubClient (ProjectRef.unsupported "float64") none).1.result
      = none ∧
    (ReleasesService.UpdateRelease stubClient (ProjectRef.unsupported "float64") "v0.1" none).1.result
      = none ∧
    (ReleasesService.DeleteRelease stubClient (ProjectRef.unsupported "float64") "v0.1").1.result
      = none :=
  have h := err_implies_nil_result stubClient (ProjectRef.unsupported "float64")
    none "v0.1" none none
  ⟨h.1 (by decide), h.2.1 (by decide), h.2.2.1 (by decide),
    h.2.2.2.1 (by decide), h.2.2.2.2 (by decide)⟩

/-- C5: when the round trip (or its decoding) fails, every operation
returns the collaborator's error unchanged together with the response
metadata that accompanied it — the metadata is not replaced by `nil` —
and issues no second request (no retry). -/
theorem do_error_passthrough_all_ops (c : Client) (pid : ProjectRef)
    (project : String) (hp : parseID pid = Except.ok project)
    (hb : ∀ m u b q, c.buildErr m u b q = none)
    (e : ErrorKind) (m : Option Response)
    (hperf : ∀ req, c.perform req = (Except.error e, m))
    (opt : Option ListOptions) (tag : String)
    (copts : Option CreateReleaseOptions) (uopts : Option UpdateReleaseOptions) :
    ((ReleasesService.ListReleases c pid opt).1 = ⟨none, m, some e⟩ ∧
      (ReleasesService.ListReleases c pid opt).2.length = 1) ∧
    ((ReleasesService.GetRelease c pid tag).1 = ⟨none, m, some e⟩ ∧
      (ReleasesService.GetRelease c pid tag).2.length = 1) ∧
    ((ReleasesService.CreateRelease c pid copts).1 = ⟨none, m, some e⟩ ∧
      (ReleasesService.CreateRelease c pid copts).2.length = 1) ∧
    ((ReleasesService.UpdateRelease c pid tag uopts).1 = ⟨none, m, some e⟩ ∧
      (ReleasesService.UpdateRelease c pid tag uopts).2.length = 1) ∧
    ((ReleasesService.DeleteRelease c pid tag).1 = ⟨none, m, some e⟩ ∧
      (ReleasesService.DeleteRelease c pid tag).2.length = 1) := by
  refine ⟨?_, ?_, ?_, ?_, ?_⟩ <;>
    simp [ReleasesService.ListReleases, ReleasesService.GetRelease,
      ReleasesService.CreateRelease, ReleasesService.UpdateRelease,
      ReleasesService.DeleteRelease, hp, Client.NewRequest, hb, Client.Do, hperf]

/-- C5 witness: a transport failure with partial metadata (status 500) is
passed through unchanged by `GetRelease`, metadata included. -/
theorem do_error_passthrough_all_ops_witness :
    (ReleasesService.GetRelease (failClient ErrorKind.transport (some ⟨500⟩))
        (ProjectRef.intId 1) "v0.1").1 =
      ⟨none, some ⟨500⟩, some ErrorKind.transport⟩ :=
  (do_error_passthrough_all_ops (failClient ErrorKind.transport (some ⟨500⟩))
    (ProjectRef.intId 1) "1" rfl (fun _ _ _ _ => rfl) ErrorKind.transport
    (some ⟨500⟩) (fun _ => rfl) none "v0.1" none none).2.1.1

/-- Decoding a `Release` from an object reads `tag_name`, `name` and
`description` straight off the corresponding fields. -/
theorem decodeRelease_obj_fields (fs : List (String × Json)) (r : Release)
    (h : decodeRelease (Json.obj fs) = some r) :
    getString fs "tag_name" = some r.TagName ∧
    getString fs "name" = some r.Name ∧
    getString fs "description" = some r.Description := by
  simp only [decodeRelease, Option.bind_eq_bind', Option.bind_eq_some,
    Option.some.injEq] at h
  obtain ⟨t, ht, n, hn, d, hd, dh, hdh, ca, hca, au, hau, co, hco, asx, hasx, hr⟩ := h
  subst hr
  exact ⟨ht, hn, hd⟩

/-- The fixture release decoded from `fixtureJson`. -/
def fixtureRelease : Release :=
  ⟨"v0.1", "Awesome app v0.1 alpha", "CHANGELOG for v0.1", "", none, none, none, none⟩

/-- A successfully decoded payload forces a successful `*Release` decode. -/
theorem decodeReleasePtr_of_decodeRelease (j : Json) (r : Release)
    (hdec : decodeRelease j = some r) : decodeReleasePtr j = some (some r) := by
  cases j with
  | obj fs => simp only [decodeReleasePtr, hdec, Option.map_some']
  | null => simp [decodeRelease] at hdec
  | bool b => simp [decodeRelease] at hdec
  | num n => simp [decodeRelease] at hdec
  | str s => simp [decodeRelease] at hdec
  | arr xs => simp [decodeRelease] at hdec

/-- C4: each operation issues exactly one request with the verb and path
of the interface table — `ListReleases` GET and `CreateRelease` POST on
`projects/{project}/releases`; `GetRelease` GET, `UpdateRelease` PUT and
`DeleteRelease` DELETE on `projects/{project}/releases/{tag}` — and
`CreateRelease`, `UpdateRelease` and `DeleteRelease` return the `Release`
decoded from the server response, whose tag is the fixture tag `v0.1`
when the server echoes it. -/
theorem one_request_per_op_table (c : Client) (pid : ProjectRef)
    (project : String) (hp : parseID pid = Except.ok project)
    (hb : ∀ m u b q, c.buildErr m u b q = none)
    (j : Json) (m : Option Response)
    (hperf : ∀ req, c.perform req = (Except.ok j, m))
    (r : Release) (hdec : decodeRelease j = some r) (htag : r.TagName = "v0.1")
    (opt : Option ListOptions) (tag : String)
    (copts : Option CreateReleaseOptions) (uopts : Option UpdateReleaseOptions) :
    (ReleasesService.ListReleases c pid opt).2 =
      [⟨"GET", "projects/" ++ url.QueryEscape project ++ "/releases", none,
        opt.map encodeListOptions⟩] ∧
    (ReleasesService.GetRelease c pid tag).2 =
      [⟨"GET", "projects/" ++ url.QueryEscape project ++ "/releases/" ++ tag,
        none, none⟩] ∧
    ((ReleasesService.CreateRelease c pid copts).2 =
      [⟨"POST", "projects/" ++ url.QueryEscape project ++ "/releases",
        copts.map (fun o => (encodeCreateReleaseOptions o).render), none⟩] ∧
      (ReleasesService.CreateRelease c pid copts).1.result = some r ∧
      r.TagName = "v0.1") ∧
    ((ReleasesService.UpdateRelease c pid tag uopts).2 =
      [⟨"PUT", "projects/" ++ url.QueryEscape project ++ "/releases/" ++ tag,
        uopts.map (fun o => (encodeUpdateReleaseOptions o).render), none⟩] ∧
      (ReleasesService.UpdateRelease c pid tag uopts).1.result = some r) ∧
    ((ReleasesService.DeleteRelease c pid tag).2 =
      [⟨"DELETE", "projects/" ++ url.QueryEscape project ++ "/releases/" ++ tag,
        none, none⟩] ∧
      (ReleasesService.DeleteRelease c pid tag).1.result = some r) := by
  have hj := decodeReleasePtr_of_decodeRelease j r hdec
  refine ⟨?_, ?_, ⟨?_, ?_, htag⟩, ⟨?_, ?_⟩, ⟨?_, ?_⟩⟩ <;>
    simp [ReleasesService.ListReleases, ReleasesService.GetRelease,
      ReleasesService.CreateRelease, ReleasesService.UpdateRelease,
      ReleasesService.DeleteRelease, hp, Client.NewRequest, hb, Client.Do,
      hperf, hj] <;>
    (cases hds : decodeReleaseSlice j <;> simp [hds])

/-- C4 witness: against a server echoing the `v0.1` fixture, project id 1
produces the concrete POST/PUT/DELETE requests and the echoed release. -/
theorem one_request_per_op_table_witness :
    (ReleasesService.DeleteRelease echoClient (ProjectRef.intId 1) "v0.1").2 =
      [⟨"DELETE", "projects/1/releases/v0.1", none, none⟩] ∧
    (ReleasesService.DeleteRelease echoClient (ProjectRef.intId 1) "v0.1").1.result =
      some fixtureRelease :=
  (one_request_per_op_table echoClient (ProjectRef.intId 1) "1" rfl
    (fun _ _ _ _ => rfl) fixtureJson (some ⟨200⟩) (fun _ => rfl)
    fixtureRelease rfl rfl none "v0.1" none none).2.2.2.2

/-- C2 (amended): for every valid project reference and tag name,
`GetRelease` issues exactly one GET to `projects/{p}/releases/{tag}`,
where the project segment is percent-encoded with Go's query escaping
(`url.QueryEscape`, a space becoming `+`) and the tag is inserted
verbatim with no additional encoding, and the returned Release's
`TagName` equals the input tag when the server echoes it. -/
theorem getRelease_single_get_query_escaped (c : Client) (pid : ProjectRef)
    (project tag : String) (hp : parseID pid = Except.ok project)
    (hb : ∀ m u b q, c.buildErr m u b q = none)
    (j : Json) (m : Option Response)
    (hperf : ∀ req, c.perform req = (Except.ok j, m))
    (r : Release) (hdec : decodeRelease j = some r) :
    (ReleasesService.GetRelease c pid tag).2 =
      [⟨"GET", "projects/" ++ url.QueryEscape project ++ "/releases/" ++ tag,
        none, none⟩] ∧
    (ReleasesService.GetRelease c pid tag).1 = ⟨some r, m, none⟩ ∧
    (∀ fs, j = Json.obj fs →
      Json.lookupField fs "tag_name" = some (Json.str tag) → r.TagName = tag) := by
  have hj := decodeReleasePtr_of_decodeRelease j r hdec
  refine ⟨?_, ?_, ?_⟩
  · simp [ReleasesService.GetRelease, hp, Client.NewRequest, hb, Client.Do, hperf, hj]
  · simp [ReleasesService.GetRelease, hp, Client.NewRequest, hb, Client.Do, hperf, hj]
  · intro fs hfs htg
    subst hfs
    have hfields := decodeRelease_obj_fields fs r hdec
    have : getString fs "tag_name" = some tag := by simp [getString, htg]
    rw [hfields.1] at this
    exact (Option.some.injEq _ _ ▸ this).symm ▸ rfl

/-- C2 witness: project id 1 and tag `v0.1` against the echoing fixture
server produce the single GET to `projects/1/releases/v0.1`, returning
the fixture release, whose tag equals the input tag. -/
theorem getRelease_single_get_query_escaped_witness :
    (ReleasesService.GetRelease echoClient (ProjectRef.intId 1) "v0.1").2 =
      [⟨"GET", "projects/1/releases/v0.1", none, none⟩] ∧
    (ReleasesService.GetRelease echoClient (ProjectRef.intId 1) "v0.1").1 =
      ⟨some fixtureRelease, some ⟨200⟩, none⟩ :=
  have h := getRelease_single_get_query_escaped echoClient (ProjectRef.intId 1)
    "1" "v0.1" rfl (fun _ _ _ _ => rfl) fixtureJson (some ⟨200⟩) (fun _ => rfl)
    fixtureRelease rfl
  ⟨h.1, h.2.1⟩

/-- C2 counterexample: the valid project path `a b` shows the code's
encoding is `url.QueryEscape`, not percent-encoding as a path segment:
the issued path is `projects/a+b/releases/v0.1`, which differs from the
path built with path-segment percent-encoding,
`projects/a%20b/releases/v0.1`. -/
theorem getRelease_path_segment_encoding_counterexample :
    parseID (ProjectRef.strPath "a b") = Except.ok "a b" ∧
    (ReleasesService.GetRelease echoClient (ProjectRef.strPath "a b") "v0.1").2 =
      [⟨"GET", "projects/a+b/releases/v0.1", none, none⟩] ∧
    "projects/" ++ url.PathSegmentEscape "a b" ++ "/releases/" ++ "v0.1" =
      "projects/a%20b/releases/v0.1" ∧
    (ReleasesService.GetRelease echoClient (ProjectRef.strPath "a b") "v0.1").2 ≠
      [⟨"GET", "projects/" ++ url.PathSegmentEscape "a b" ++ "/releases/" ++ "v0.1",
        none, none⟩] :=
  ⟨rfl, rfl, rfl, by decide⟩

/-- A second release payload, tag `v0.2`, for the two-element list
fixture. -/
def fixtureJson2 : Json :=
  Json.obj [("tag_name", Json.str "v0.2"), ("name", Json.str "Awesome app v0.2 beta"),
    ("description", Json.str "CHANGELOG for v0.2")]

/-- The fixture release decoded from `fixtureJson2`. -/
def fixtureRelease2 : Release :=
  ⟨"v0.2", "Awesome app v0.2 beta", "CHANGELOG for v0.2", "", none, none, none, none⟩

/-- A client answering every request with the two-element array
`[fixtureJson2, fixtureJson]` (reverse-chronological, as the remote
convention has it). -/
def listClient : Client :=
  ⟨fun _ _ _ _ => none,
    fun _ => (Except.ok (Json.arr [fixtureJson2, fixtureJson]), some ⟨200⟩)⟩

/-- C6: a server response that is a two-element JSON array of release
objects makes `ListReleases` return exactly those two releases, in the
array's order, with a single request issued and no local re-sorting. -/
theorem listReleases_two_elements_in_order (c : Client) (pid : ProjectRef)
    (project : String) (hp : parseID pid = Except.ok project)
    (hb : ∀ m u b q, c.buildErr m u b q = none)
    (j1 j2 : Json) (r1 r2 : Release) (m : Option Response)
    (hperf : ∀ req, c.perform req = (Except.ok (Json.arr [j1, j2]), m))
    (h1 : decodeRelease j1 = some r1) (h2 : decodeRelease j2 = some r2)
    (opt : Option ListOptions) :
    (ReleasesService.ListReleases c pid opt).1 =
      ⟨some [some r1, some r2], m, none⟩ ∧
    (ReleasesService.ListReleases c pid opt).2.length = 1 := by
  have hj1 := decodeReleasePtr_of_decodeRelease j1 r1 h1
  have hj2 := decodeReleasePtr_of_decodeRelease j2 r2 h2
  have hslice : decodeReleaseSlice (Json.arr [j1, j2]) =
      some (some [some r1, some r2]) := by
    simp [decodeReleaseSlice, decodeList, decodeList.go, hj1, hj2]
  constructor <;>
    simp [ReleasesService.ListReleases, hp, Client.NewRequest, hb, Client.Do,
      hperf, hslice]

/-- C6 witness: the concrete two-element fixture array comes back as the
two fixture releases in array order. -/
theorem listReleases_two_elements_in_order_witness :
    (ReleasesService.ListReleases listClient (ProjectRef.intId 1) none).1 =
      ⟨some [some fixtureRelease2, some fixtureRelease], some ⟨200⟩, none⟩ :=
  (listReleases_two_elements_in_order listClient (ProjectRef.intId 1) "1" rfl
    (fun _ _ _ _ => rfl) fixtureJson2 fixtureJson fixtureRelease2 fixtureRelease
    (some ⟨200⟩) (fun _ => rfl) rfl rfl none).1

/-- C7: `UpdateRelease` sends a JSON body containing exactly the fields
`name` and `description` (in that order); the tag appears only as a path
parameter, and `UpdateReleaseOptions` offers no field that could carry a
tag in the body. -/
theorem updateRelease_body_name_description_only (c : Client) (pid : ProjectRef)
    (project tag : String) (o : UpdateReleaseOptions)
    (hp : parseID pid = Except.ok project)
    (hb : ∀ m u b q, c.buildErr m u b q = none) :
    encodeUpdateReleaseOptions o =
      Json.obj [("name", Json.str o.Name), ("description", Json.str o.Description)] ∧
    (ReleasesService.UpdateRelease c pid tag (some o)).2 =
      [⟨"PUT", "projects/" ++ url.QueryEscape project ++ "/releases/" ++ tag,
        some (Json.obj [("name", Json.str o.Name),
          ("description", Json.str o.Description)]).render, none⟩] := by
  refine ⟨rfl, ?_⟩
  have he : encodeUpdateReleaseOptions o =
      Json.obj [("name", Json.str o.Name), ("description", Json.str o.Description)] := rfl
  rw [← he]
  rcases hdo : Client.Do c ⟨"PUT",
      "projects/" ++ url.QueryEscape project ++ "/releases/" ++ tag,
      some (encodeUpdateReleaseOptions o).render, none⟩ decodeReleasePtr
    with ⟨out, mm⟩
  cases out <;>
    simp [ReleasesService.UpdateRelease, hp, Client.NewRequest, hb, hdo]

/-- C7 witness: the concrete update options of the test fixture produce
the PUT request with the two-key body. -/
theorem updateRelease_body_name_description_only_witness :
    (ReleasesService.UpdateRelease echoClient (ProjectRef.intId 1) "v0.1"
        (some ⟨"name", "Description"⟩)).2 =
      [⟨"PUT", "projects/1/releases/v0.1",
        some (Json.obj [("name", Json.str "name"),
          ("description", Json.str "Description")]).render, none⟩] :=
  (updateRelease_body_name_description_only echoClient (ProjectRef.intId 1)
    "1" "v0.1" ⟨"name", "Description"⟩ rfl (fun _ _ _ _ => rfl)).2

/-- C8: a create-input asset link serializes its display name under the
JSON key `name` and its URL field under the key `ref` — not `url`: the
serialized object has no `url` key at all. -/
theorem releaseAssetLink_url_serialized_as_ref (l : ReleaseAssetLink) :
    encodeReleaseAssetLink l =
      Json.obj [("name", Json.str l.Name), ("ref", Json.str l.URL)] ∧
    Json.lookupField [("name", Json.str l.Name), ("ref", Json.str l.URL)] "ref" =
      some (Json.str l.URL) ∧
    Json.lookupField [("name", Json.str l.Name), ("ref", Json.str l.URL)] "url" =
      none := by
  refine ⟨rfl, ?_, ?_⟩ <;> simp [Json.lookupField]

/-- C9: decoding a release payload whose object carries string `tag_name`,
`name` and `description` fields, then re-encoding the create-relevant
fields, preserves the three values verbatim. -/
theorem roundtrip_create_relevant_fields (fs : List (String × Json)) (r : Release)
    (t n d : String)
    (ht : Json.lookupField fs "tag_name" = some (Json.str t))
    (hn : Json.lookupField fs "name" = some (Json.str n))
    (hd : Json.lookupField fs "description" = some (Json.str d))
    (hr : decodeRelease (Json.obj fs) = some r) :
    r.TagName = t ∧ r.Name = n ∧ r.Description = d ∧
    encodeCreateReleaseOptions ⟨r.Name, r.TagName, r.Description, "", none⟩ =
      Json.obj [("name", Json.str n), ("tag_name", Json.str t),
        ("description", Json.str d)] := by
  have hf := decodeRelease_obj_fields fs r hr
  have e1 : some r.TagName = some t := by rw [← hf.1]; simp [getString, ht]
  have e2 : some r.Name = some n := by rw [← hf.2.1]; simp [getString, hn]
  have e3 : some r.Description = some d := by rw [← hf.2.2]; simp [getString, hd]
  have h1 := Option.some.inj e1
  have h2 := Option.some.inj e2
  have h3 := Option.some.inj e3
  exact ⟨h1, h2, h3, by simp [encodeCreateReleaseOptions, h1, h2, h3]⟩

/-- The field list of a realistic fixture release payload (a trimmed form
of the wire fixture used by the repository's tests). -/
def exampleReleaseFields : List (String × Json) :=
  [("tag_name", Json.str "v0.1"),
   ("description", Json.str "CHANGELOG entries for the first release"),
   ("name", Json.str "Awesome app v0.1 alpha"),
   ("description_html", Json.str "<h2>CHANGELOG</h2>"),
   ("created_at", Json.str "2019-01-03T01:55:18.203Z"),
   ("author", Json.obj [("id", Json.num 1), ("name", Json.str "Administrator"),
     ("username", Json.str "root"), ("state", Json.str "active"),
     ("avatar_url", Json.str "https://www.gravatar.com/avatar/e64c"),
     ("web_url", Json.str "http://localhost:3000/root")]),
   ("commit", Json.obj [("id", Json.str "f8d3d94cbd347e924aa7b715845e439d00e80ca4"),
     ("short_id", Json.str "f8d3d94c"), ("title", Json.str "Initial commit")]),
   ("assets", Json.obj [("count", Json.num 4),
     ("sources", Json.arr
       [Json.obj [("format", Json.str "zip"),
         ("url", Json.str "http://localhost:3000/root/awesome-app/-/archive/v0.1/awesome-app-v0.1.zip")],
        Json.obj [("format", Json.str "tar.gz"),
         ("url", Json.str "http://localhost:3000/root/awesome-app/-/archive/v0.1/awesome-app-v0.1.tar.gz")]]),
     ("links", Json.arr [])])]

/-- The release decoded from `exampleReleaseFields`. -/
def exampleRelease : Release :=
  ⟨"v0.1", "Awesome app v0.1 alpha", "CHANGELOG entries for the first release",
   "<h2>CHANGELOG</h2>", some "2019-01-03T01:55:18.203Z",
   some ⟨1, "Administrator", "root", "active",
     "https://www.gravatar.com/avatar/e64c", "http://localhost:3000/root"⟩,
   some (Json.obj [("id", Json.str "f8d3d94cbd347e924aa7b715845e439d00e80ca4"),
     ("short_id", Json.str "f8d3d94c"), ("title", Json.str "Initial commit")]),
   some ⟨4,
     [⟨"zip", "http://localhost:3000/root/awesome-app/-/archive/v0.1/awesome-app-v0.1.zip"⟩,
      ⟨"tar.gz", "http://localhost:3000/root/awesome-app/-/archive/v0.1/awesome-app-v0.1.tar.gz"⟩],
     []⟩⟩

/-- C9 witness: on the concrete fixture payload the round trip preserves
`tag_name`, `name` and `description` verbatim. -/
theorem roundtrip_create_relevant_fields_witness :
    exampleRelease.TagName = "v0.1" ∧
    exampleRelease.Name = "Awesome app v0.1 alpha" ∧
    exampleRelease.Description = "CHANGELOG entries for the first release" ∧
    encodeCreateReleaseOptions
      ⟨exampleRelease.Name, exampleRelease.TagName, exampleRelease.Description,
        "", none⟩ =
      Json.obj [("name", Json.str "Awesome app v0.1 alpha"),
        ("tag_name", Json.str "v0.1"),
        ("description", Json.str "CHANGELOG entries for the first release")] :=
  roundtrip_create_relevant_fields exampleReleaseFields exampleRelease
    "v0.1" "Awesome app v0.1 alpha" "CHANGELOG entries for the first release"
    rfl rfl rfl rfl

/-! ## Substring reasoning for the `assets` wire contract -/

/-- String concatenation concatenates the underlying character lists. -/
theorem string_data_append (a b : String) : (a ++ b).data = a.data ++ b.data := rfl

/-- A "plain" character: not a quote, backslash, `<`, `>`, `&` or control
character, so Go's JSON escaping leaves it unchanged. -/
def plainChar (c : Char) : Bool :=
  c ≠ Char.ofNat 34 && c ≠ Char.ofNat 92 && c ≠ '<' && c ≠ '>' && c ≠ '&' &&
    32 ≤ c.toNat

/-- A string of plain characters. -/
def plainStr (s : String) : Bool := s.data.all plainChar

/-- Go's JSON escaping leaves a plain character unchanged. -/
theorem goEscapeChar_plain (c : Char) (h : plainChar c = true) :
    goEscapeChar c = [c] := by
  simp only [plainChar, Bool.and_eq_true, decide_eq_true_eq, ne_eq] at h
  obtain ⟨⟨⟨⟨⟨h1, h2⟩, h3⟩, h4⟩, h5⟩, h6⟩ := h
  have h10 : ¬(c = Char.ofNat 10) := fun he => by subst he; exact absurd h6 (by decide)
  have h13 : ¬(c = Char.ofNat 13) := fun he => by subst he; exact absurd h6 (by decide)
  have h9 : ¬(c = Char.ofNat 9) := fun he => by subst he; exact absurd h6 (by decide)
  have h32 : ¬(c.toNat < 32) := by omega
  simp [goEscapeChar, h1, h2, h3, h4, h5, h9, h10, h13, h32]

/-- Go's JSON escaping leaves a plain character list unchanged. -/
theorem goEscapeList_plain : ∀ l : List Char, l.all plainChar = true →
    goEscapeList l = l := by
  intro l
  induction l with
  | nil => intro _; rfl
  | cons c cs ih =>
    intro h
    rw [List.all_cons, Bool.and_eq_true] at h
    simp [goEscapeList, goEscapeChar_plain c h.1, ih h.2]

/-- Go's JSON escaping leaves a plain string unchanged. -/
theorem goEscape_plain (s : String) (h : plainStr s = true) : goEscape s = s := by
  cases s with
  | mk l => exact congrArg String.mk (goEscapeList_plain l h)

/-- Inserting one character absent from the pattern does not create a
prefix occurrence before it. -/
theorem startsWithList_append_cons (q : Char) :
    ∀ (a b p : List Char), q ∉ p →
      startsWithList (a ++ q :: b) p = startsWithList a p := by
  intro a
  induction a with
  | nil =>
    intro b p hq
    cases p with
    | nil => rfl
    | cons p0 ps =>
      have hne : ¬(q = p0) := fun h => hq (h ▸ List.mem_cons_self q ps)
      simp [startsWithList, hne]
  | cons c as ih =>
    intro b p hq
    cases p with
    | nil => rfl
    | cons p0 ps =>
      have hq2 : q ∉ ps := fun h => hq (List.mem_cons_of_mem p0 h)
      simp [startsWithList, ih b ps hq2]

/-- A pattern avoiding the separator character occurs in `a ++ q :: b`
exactly when it occurs in `a` or in `b`. -/
theorem containsSubAux_append_cons (q : Char) :
    ∀ (a b p : List Char), q ∉ p →
      containsSubAux (a ++ q :: b) p =
        (containsSubAux a p || containsSubAux b p) := by
  intro a
  induction a with
  | nil =>
    intro b p hq
    cases p with
    | nil => simp [containsSubAux, startsWithList]
    | cons p0 ps =>
      have hne : ¬(q = p0) := fun h => hq (h ▸ List.mem_cons_self q ps)
      simp [containsSubAux, startsWithList, hne]
  | cons c as ih =>
    intro b p hq
    have h1 : startsWithList ((c :: as) ++ q :: b) p = startsWithList (c :: as) p :=
      startsWithList_append_cons q (c :: as) b p hq
    calc containsSubAux ((c :: as) ++ q :: b) p
        = (startsWithList ((c :: as) ++ q :: b) p ||
            containsSubAux (as ++ q :: b) p) := by
          simp [containsSubAux]
      _ = (startsWithList (c :: as) p ||
            (containsSubAux as p || containsSubAux b p)) := by
          rw [h1, ih b p hq]
      _ = (containsSubAux (c :: as) p || containsSubAux b p) := by
          simp [containsSubAux, Bool.or_assoc]

/-- An occurrence in the right part survives prepending. -/
theorem containsSubAux_append_right : ∀ (a b p : List Char),
    containsSubAux b p = true → containsSubAux (a ++ b) p = true := by
  intro a b p h
  induction a with
  | nil => exact h
  | cons c as ih => simp [containsSubAux, ih]

/-- Every list starts with itself, whatever follows. -/
theorem startsWithList_self_append : ∀ (p x : List Char),
    startsWithList (p ++ x) p = true := by
  intro p
  induction p with
  | nil => intro x; simp [startsWithList]
  | cons c ps ih => intro x; simp [startsWithList, ih]

/-- A prefix occurrence is an occurrence. -/
theorem containsSubAux_of_startsWith : ∀ (l p : List Char),
    startsWithList l p = true → containsSubAux l p = true := by
  intro l p h
  cases l with
  | nil =>
    cases p with
    | nil => rfl
    | cons p0 ps => simp [startsWithList] at h
  | cons c rest => simp [containsSubAux, h]

/-- Join character-list chunks with a double-quote separator, the shape
of a rendered JSON object split at its quotes. -/
def quoteJoin : List (List Char) → List Char
  | [] => []
  | [c] => c
  | c :: c2 :: cs => c ++ Char.ofNat 34 :: quoteJoin (c2 :: cs)

/-- A quote-free pattern absent from every chunk is absent from the
quote-joined whole. -/
theorem containsSubAux_quoteJoin (p : List Char) (hq : Char.ofNat 34 ∉ p)
    (hne : p ≠ []) :
    ∀ chunks : List (List Char),
      (∀ ch ∈ chunks, containsSubAux ch p = false) →
      containsSubAux (quoteJoin chunks) p = false := by
  intro chunks
  induction chunks with
  | nil =>
    intro _
    cases p with
    | nil => exact absurd rfl hne
    | cons p0 ps => rfl
  | cons c cs ih =>
    intro h
    cases cs with
    | nil => exact h c (List.mem_cons_self c [])
    | cons c2 cs2 =>
      rw [quoteJoin, containsSubAux_append_cons (Char.ofNat 34) c _ p hq]
      rw [h c (List.mem_cons_self c _),
        ih (fun ch hch => h ch (List.mem_cons_of_mem c hch))]
      rfl

/-- The rendered create body with no ref and no assets, split at its
quotes: three key/value fields only. -/
theorem createRelease_body_data_no_ref (o : CreateReleaseOptions)
    (hA : o.Assets = none) (hR : o.Ref = "")
    (hpn : plainStr o.Name = true) (hpt : plainStr o.TagName = true)
    (hpd : plainStr o.Description = true) :
    ((encodeCreateReleaseOptions o).render).data =
      quoteJoin [[Char.ofNat 123], "name".data, [':'], o.Name.data, [','],
        "tag_name".data, [':'], o.TagName.data, [','],
        "description".data, [':'], o.Description.data, [Char.ofNat 125]] := by
  have d1 : ("\x7b" : String).data = [Char.ofNat 123] := rfl
  have d2 : ("\x7d" : String).data = [Char.ofNat 125] := rfl
  have d3 : ("\"" : String).data = [Char.ofNat 34] := rfl
  have d4 : (":" : String).data = [':'] := rfl
  have d5 : ("," : String).data = [','] := rfl
  have k1 : goEscape "name" = "name" := rfl
  have k2 : goEscape "tag_name" = "tag_name" := rfl
  have k3 : goEscape "description" = "description" := rfl
  simp only [encodeCreateReleaseOptions, hA, hR, if_pos, List.append_nil,
    List.nil_append, List.cons_append]
  simp only [Json.render, renderFields, renderString, k1, k2, k3,
    goEscape_plain o.Name hpn, goEscape_plain o.TagName hpt,
    goEscape_plain o.Description hpd]
  simp only [string_data_append, d1, d2, d3, d4, d5, quoteJoin]
  simp [List.append_assoc]

/-- The rendered create body with a non-empty ref and no assets, split at
its quotes: four key/value fields only. -/
theorem createRelease_body_data_with_ref (o : CreateReleaseOptions)
    (hA : o.Assets = none) (hR : ¬(o.Ref = ""))
    (hpn : plainStr o.Name = true) (hpt : plainStr o.TagName = true)
    (hpd : plainStr o.Description = true) (hpr : plainStr o.Ref = true) :
    ((encodeCreateReleaseOptions o).render).data =
      quoteJoin [[Char.ofNat 123], "name".data, [':'], o.Name.data, [','],
        "tag_name".data, [':'], o.TagName.data, [','],
        "description".data, [':'], o.Description.data, [','],
        "ref".data, [':'], o.Ref.data, [Char.ofNat 125]] := by
  have d1 : ("\x7b" : String).data = [Char.ofNat 123] := rfl
  have d2 : ("\x7d" : String).data = [Char.ofNat 125] := rfl
  have d3 : ("\"" : String).data = [Char.ofNat 34] := rfl
  have d4 : (":" : String).data = [':'] := rfl
  have d5 : ("," : String).data = [','] := rfl
  have k1 : goEscape "name" = "name" := rfl
  have k2 : goEscape "tag_name" = "tag_name" := rfl
  have k3 : goEscape "description" = "description" := rfl
  have k4 : goEscape "ref" = "ref" := rfl
  simp only [encodeCreateReleaseOptions, hA, if_neg hR, List.append_nil,
    List.nil_append, List.cons_append, List.singleton_append]
  simp only [Json.render, renderFields, renderString, k1, k2, k3, k4,
    goEscape_plain o.Name hpn, goEscape_plain o.TagName hpt,
    goEscape_plain o.Description hpd, goEscape_plain o.Ref hpr]
  simp only [string_data_append, d1, d2, d3, d4, d5, quoteJoin]
  simp [List.append_assoc]

/-- String-level form of `containsSubAux_append_right`. -/
theorem containsSubstr_append_right (a b p : String)
    (h : containsSubstr b p = true) : containsSubstr (a ++ b) p = true :=
  containsSubAux_append_right a.data b.data p.data h

/-- A string contains itself as a prefix of any extension. -/
theorem containsSubstr_self_append (p x : String) :
    containsSubstr (p ++ x) p = true :=
  containsSubAux_of_startsWith _ _ (startsWithList_self_append p.data x.data)

/-- C3: `CreateRelease` sends exactly the rendered options as its JSON
body; with `Assets` unset (and fields free of JSON-escaping and of the
letters `assets` themselves) that body nowhere contains the substring
`assets` — the key is entirely absent — while a non-`nil` `Assets`
carrying one link makes the body contain `assets`. -/
theorem createRelease_assets_key_presence (c : Client) (pid : ProjectRef)
    (project : String) (hp : parseID pid = Except.ok project)
    (hb : ∀ m u b q, c.buildErr m u b q = none)
    (o : CreateReleaseOptions) (hA : o.Assets = none)
    (hpn : plainStr o.Name = true) (hpt : plainStr o.TagName = true)
    (hpd : plainStr o.Description = true) (hpr : plainStr o.Ref = true)
    (h1 : containsSubstr o.Name "assets" = false)
    (h2 : containsSubstr o.TagName "assets" = false)
    (h3 : containsSubstr o.Description "assets" = false)
    (h4 : containsSubstr o.Ref "assets" = false)
    (o2 : CreateReleaseOptions) (l : ReleaseAssetLink)
    (hA2 : o2.Assets = some ⟨[l]⟩) :
    (ReleasesService.CreateRelease c pid (some o)).2 =
      [⟨"POST", "projects/" ++ url.QueryEscape project ++ "/releases",
        some ((encodeCreateReleaseOptions o).render), none⟩] ∧
    containsSubstr ((encodeCreateReleaseOptions o).render) "assets" = false ∧
    containsSubstr ((encodeCreateReleaseOptions o2).render) "assets" = true := by
  have hq : Char.ofNat 34 ∉ ("assets" : String).data := by decide
  have hne : ("assets" : String).data ≠ [] := by decide
  refine ⟨?_, ?_, ?_⟩
  · rcases hdo : Client.Do c ⟨"POST",
        "projects/" ++ url.QueryEscape project ++ "/releases",
        some (encodeCreateReleaseOptions o).render, none⟩ decodeReleasePtr
      with ⟨out, mm⟩
    cases out <;>
      simp [ReleasesService.CreateRelease, hp, Client.NewRequest, hb, hdo]
  · by_cases hR : o.Ref = ""
    · rw [containsSubstr, createRelease_body_data_no_ref o hA hR hpn hpt hpd]
      apply containsSubAux_quoteJoin _ hq hne
      intro ch hch
      simp only [List.mem_cons, List.not_mem_nil, or_false] at hch
      rcases hch with h|h|h|h|h|h|h|h|h|h|h|h|h <;> subst h
      · decide
      · decide
      · decide
      · exact h1
      · decide
      · decide
      · decide
      · exact h2
      · decide
      · decide
      · decide
      · exact h3
      · decide
    · rw [containsSubstr, createRelease_body_data_with_ref o hA hR hpn hpt hpd hpr]
      apply containsSubAux_quoteJoin _ hq hne
      intro ch hch
      simp only [List.mem_cons, List.not_mem_nil, or_false] at hch
      rcases hch with h|h|h|h|h|h|h|h|h|h|h|h|h|h|h|h|h <;> subst h
      · decide
      · decide
      · decide
      · exact h1
      · decide
      · decide
      · decide
      · exact h2
      · decide
      · decide
      · decide
      · exact h3
      · decide
      · decide
      · decide
      · exact h4
      · decide
  · obtain ⟨n2, t2, d2, r2, a2⟩ := o2
    simp only at hA2
    subst hA2
    have k4 : goEscape "assets" = "assets" := rfl
    by_cases hr2 : r2 = ""
    · simp only [encodeCreateReleaseOptions, hr2, if_pos, List.append_nil,
        List.nil_append, List.cons_append, List.singleton_append]
      simp only [Json.render, renderFields, renderString, k4]
      simp only [String.append_assoc]
      repeat (first
        | exact containsSubstr_self_append _ _
        | apply containsSubstr_append_right)
    · simp only [encodeCreateReleaseOptions, if_neg hr2, List.append_nil,
        List.nil_append, List.cons_append, List.singleton_append]
      simp only [Json.render, renderFields, renderString, k4]
      simp only [String.append_assoc]
      repeat (first
        | exact containsSubstr_self_append _ _
        | apply containsSubstr_append_right)

/-- C3 witness: the test-fixture options (`name`, `v0.1`, `Description`)
without assets yield a body free of `assets`; adding the one-link assets
wrapper makes the body contain `assets`. -/
theorem createRelease_assets_key_presence_witness :
    (ReleasesService.CreateRelease echoClient (ProjectRef.intId 1)
        (some ⟨"name", "v0.1", "Description", "", none⟩)).2 =
      [⟨"POST", "projects/1/releases",
        some ((encodeCreateReleaseOptions
          ⟨"name", "v0.1", "Description", "", none⟩).render), none⟩] ∧
    containsSubstr ((encodeCreateReleaseOptions
      ⟨"name", "v0.1", "Description", "", none⟩).render) "assets" = false ∧
    containsSubstr ((encodeCreateReleaseOptions
      ⟨"name", "v0.1", "Description", "",
        some ⟨[⟨"sldkf", "sldkfj"⟩]⟩⟩).render) "assets" = true :=
  createRelease_assets_key_presence echoClient (ProjectRef.intId 1) "1" rfl
    (fun _ _ _ _ => rfl) ⟨"name", "v0.1", "Description", "", none⟩ rfl
    (by decide) (by decide) (by decide) (by decide)
    (by decide) (by decide) (by decide) (by decide)
    ⟨"name", "v0.1", "Description", "", some ⟨[⟨"sldkf", "sldkfj"⟩]⟩⟩
    ⟨"sldkf", "sldkfj"⟩ rfl
